import Mathlib

/-!
Verification of the Realtime Session Orchestrator of the
`openai-realtime-console-websocket` repository.

The definitions below are a shallow embedding of the orchestration code in
`src/pages/ConsolePage.tsx` (the `ConsolePage` component): the
`realtime.event` aggregation handler, the reconnect scheduling on the
`disconnected` event, the tool handlers, `startRecording`,
`changeTurnEndType`, `sendUserInput` and the `conversation.updated` handler.
Operations of external collaborators that are not part of the repository
sources (the protocol library's tool-dispatch boundary, the wavtools
capture/playback devices) are modelled from the specification's interface
contracts and are marked as such in their doc comments.
-/

/-- Source tag of a logged realtime event (`interface RealtimeEvent`,
`source: 'client' | 'server'`). -/
inductive EventSource
  | client
  | server
deriving DecidableEq, Repr

/-- One element of the `event.rate_limits` array carried by a
`rate_limits.updated` event envelope.  Fields that a given event may or may
not carry are `Option`s; a JavaScript property set to `undefined` is
modelled as `none` (it is dropped by `JSON.stringify`, which is how the
MemoryMap is observed). -/
structure RateLimitEntry where
  name : String
  limit : Option Nat
  remaining : Option Nat
  reset_seconds : Option Nat
  reset_minutes : Option Nat
deriving DecidableEq, Repr

/-- An event observed by the `client.on('realtime.event')` handler: the
wall-clock time, the source, and the raw event envelope (of which we keep
the `type` field and the optional `rate_limits` payload that the handler
inspects). -/
structure RawEvent where
  time : String
  source : EventSource
  etype : String
  rate_limits : Option (List RateLimitEntry)
deriving DecidableEq, Repr

/-- An entry of the `realtimeEvents` log (`interface RealtimeEvent` with its
optional `count` aggregation field). -/
structure LogEntry where
  time : String
  source : EventSource
  count : Option Nat
  etype : String
  rate_limits : Option (List RateLimitEntry)
deriving DecidableEq, Repr

/-- The log entry freshly appended for an observed event: the event itself,
with no `count` field yet (`realtimeEvents.concat(realtimeEvent)`). -/
def initEntry (e : RawEvent) : LogEntry :=
  { time := e.time, source := e.source, count := none, etype := e.etype,
    rate_limits := e.rate_limits }

/-- The merge update `lastEvent.count = (lastEvent.count || 0) + 1`:
an absent count is read as `0` before incrementing. -/
def bumpCount (l : LogEntry) : LogEntry :=
  { l with count := some (l.count.getD 0 + 1) }

/-- A value stored in the `memoryKv` map: either a plain string (from
`set_memory` / `get_time`) or a formatted rate-limit object. -/
inductive MemVal
  | str (s : String)
  | limitEntry (rl : RateLimitEntry)
deriving DecidableEq, Repr

/-- The `memoryKv` state, as an association list.  A JavaScript object
spread update keeps an existing key in place and appends a new key at the
end. -/
abbrev MemoryMap := List (String × MemVal)

/-- Object-spread update of `memoryKv`: replace the value of an existing
key in place, or append the key at the end. -/
def setMemKey (m : MemoryMap) (k : String) (v : MemVal) : MemoryMap :=
  if m.any (fun p => p.1 = k) then
    m.map (fun p => if p.1 = k then (k, v) else p)
  else
    m ++ [(k, v)]

/-- Natural-number rendering of `Math.ceil(s / 60)`. -/
def ceilDiv60 (s : Nat) : Nat := (s + 59) / 60

/-- The projection of the `requests` rate-limit entry performed by the
handler: spread the entry, add `reset_minutes := Math.ceil(reset_seconds/60)`
and drop the `reset_seconds` field (the source sets it to `undefined`,
which JSON serialization removes). -/
def formatRequestsLimit (rl : RateLimitEntry) : RateLimitEntry :=
  { rl with reset_minutes := rl.reset_seconds.map ceilDiv60,
            reset_seconds := none }

/-- A side effect fired by the `realtime.event` handler besides logging:
either a `client.updateSession` modality reconfiguration or a write into
`memoryKv`. -/
inductive SideEffect
  | updateModalities (ms : List String)
  | storeMemKey (k : String) (v : MemVal)
deriving DecidableEq, Repr

/-- The side effects that the non-merge branch of the `realtime.event`
handler runs for an observed event, keyed purely on the event type:
the modality reset on `input_audio_buffer.speech_started`, and the
rate-limit projection on a well-shaped `rate_limits.updated` event. -/
def typeEffects (e : RawEvent) : List SideEffect :=
  (if e.etype = "input_audio_buffer.speech_started" then
    [SideEffect.updateModalities ["audio", "text"]]
  else []) ++
  (if e.etype = "rate_limits.updated" then
    match e.rate_limits with
    | some ls =>
      match ls.find? (fun rl => rl.name = "requests") with
      | some rl =>
        [SideEffect.storeMemKey "requests_rate_limit"
          (MemVal.limitEntry (formatRequestsLimit rl))]
      | none => []
    | none => []
  else [])

/-- One step of the `realtime.event` handler: if the new event's type equals
the type of the immediately preceding log entry, that entry's count is
bumped and the entry replaced (`realtimeEvents.slice(0, -1).concat(lastEvent)`)
and no side effect runs; otherwise the type-keyed side effects run and the
event is appended as a fresh entry. -/
def stepLogged (log : List LogEntry) (e : RawEvent) :
    List LogEntry × List SideEffect :=
  match log.getLast? with
  | some lastE =>
    if lastE.etype = e.etype then
      (log.dropLast ++ [bumpCount lastE], [])
    else
      (log ++ [initEntry e], typeEffects e)
  | none => (log ++ [initEntry e], typeEffects e)

/-- Aggregator state: the event log, the `memoryKv` map, and the ordered
trace of side effects fired so far. -/
structure AggState where
  log : List LogEntry
  mem : MemoryMap
  trace : List SideEffect
deriving DecidableEq, Repr

/-- Application of one fired side effect to the `memoryKv` map (a modality
update does not touch the map). -/
def applyMemEffect (m : MemoryMap) : SideEffect → MemoryMap
  | SideEffect.storeMemKey k v => setMemKey m k v
  | SideEffect.updateModalities _ => m

/-- One observed event, applied to the full aggregator state. -/
def stepAgg (s : AggState) (e : RawEvent) : AggState :=
  let r := stepLogged s.log e
  { log := r.1,
    mem := r.2.foldl applyMemEffect s.mem,
    trace := s.trace ++ r.2 }

/-- The aggregator state after observing a sequence of events, starting
from the reset state (`setRealtimeEvents([])`, empty memory). -/
def runAgg (es : List RawEvent) : AggState :=
  es.foldl stepAgg (AggState.mk [] [] [])

/-- The event log after observing a sequence of events. -/
def eventLog (es : List RawEvent) : List LogEntry := (runAgg es).log

/-- The ordered trace of side effects fired while observing a sequence of
events. -/
def effectsTrace (es : List RawEvent) : List SideEffect := (runAgg es).trace

/-- Log component of the fold, starting from an arbitrary log. -/
def foldLog (log : List LogEntry) (es : List RawEvent) : List LogEntry :=
  es.foldl (fun l e => (stepLogged l e).1) log

/-- Side-effect trace of the fold, starting from an arbitrary log. -/
def foldTrace (log : List LogEntry) : List RawEvent → List SideEffect
  | [] => []
  | e :: es => (stepLogged log e).2 ++ foldTrace (stepLogged log e).1 es

/-- Boolean run predicate: does this event have the given type? -/
def sameType (t : String) (e : RawEvent) : Bool := e.etype = t

/-- Decomposition of an event sequence into its maximal runs of consecutive
events of equal type. -/
def chunkRuns : List RawEvent → List (List RawEvent)
  | [] => []
  | e :: es =>
    (e :: es.takeWhile (sameType e.etype)) ::
      chunkRuns (es.dropWhile (sameType e.etype))
termination_by es => es.length
decreasing_by
  simp only [List.length_cons]
  exact Nat.lt_succ_of_le ((List.dropWhile_suffix _).length_le)

/-- The single log entry produced for one maximal run: the envelope of the
run's first event, with a `count` field only when the run has length at
least two, in which case it holds the number of merged events (one less
than the run length). -/
def entryOfRun : List RawEvent → LogEntry
  | [] =>
    { time := "", source := EventSource.client, count := none, etype := "",
      rate_limits := none }
  | e :: rest =>
    { initEntry e with
        count := if rest.length = 0 then none else some rest.length }

/-- Iterated count bump. -/
def bumpN (c : LogEntry) : Nat → LogEntry
  | 0 => c
  | k + 1 => bumpN (bumpCount c) k

/-- The side effects attributed to one run: those of its first event. -/
def runEffects : List RawEvent → List SideEffect
  | [] => []
  | e :: _ => typeEffects e

theorem bumpCount_etype (c : LogEntry) : (bumpCount c).etype = c.etype := rfl

theorem bumpN_succ_closed (k : Nat) :
    ∀ c : LogEntry, bumpN c (k + 1) =
      { c with count := some (c.count.getD 0 + (k + 1)) } := by
  induction k with
  | zero =>
    intro c
    rfl
  | succ k ih =>
    intro c
    show bumpN (bumpCount c) (k + 1) = _
    have harith : (bumpCount c).count.getD 0 + (k + 1) = c.count.getD 0 + (k + 1 + 1) := by
      show c.count.getD 0 + 1 + (k + 1) = c.count.getD 0 + (k + 1 + 1)
      omega
    rw [ih (bumpCount c), harith]
    rfl

theorem runAgg_log_eq_foldLog (es : List RawEvent) :
    ∀ s : AggState, (es.foldl stepAgg s).log = foldLog s.log es := by
  induction es with
  | nil => intro s; rfl
  | cons e es ih =>
    intro s
    show ((es.foldl stepAgg (stepAgg s e))).log = _
    rw [ih (stepAgg s e)]
    rfl

theorem runAgg_trace_eq_foldTrace (es : List RawEvent) :
    ∀ s : AggState, (es.foldl stepAgg s).trace = s.trace ++ foldTrace s.log es := by
  induction es with
  | nil => intro s; simp [foldTrace]
  | cons e es ih =>
    intro s
    show ((es.foldl stepAgg (stepAgg s e))).trace = _
    rw [ih (stepAgg s e)]
    show (s.trace ++ (stepLogged s.log e).2) ++ foldTrace (stepLogged s.log e).1 es = _
    rw [foldTrace, List.append_assoc]

theorem foldLog_append_inert (es : List RawEvent) :
    ∀ (pre : List LogEntry) (cur : LogEntry),
      foldLog (pre ++ [cur]) es = pre ++ foldLog [cur] es := by
  induction es with
  | nil => intro pre cur; rfl
  | cons e es ih =>
    intro pre cur
    show foldLog (stepLogged (pre ++ [cur]) e).1 es = pre ++ foldLog (stepLogged [cur] e).1 es
    by_cases h : cur.etype = e.etype
    · have h1 : (stepLogged (pre ++ [cur]) e).1 = pre ++ [bumpCount cur] := by
        simp [stepLogged, h]
      have h2 : (stepLogged [cur] e).1 = [bumpCount cur] := by
        simp [stepLogged, h]
      rw [h1, h2, ih pre (bumpCount cur)]
    · have h1 : (stepLogged (pre ++ [cur]) e).1 = (pre ++ [cur]) ++ [initEntry e] := by
        simp [stepLogged, h]
      have h2 : (stepLogged [cur] e).1 = [cur] ++ [initEntry e] := by
        simp [stepLogged, h]
      rw [h1, h2, ih (pre ++ [cur]) (initEntry e), ih [cur] (initEntry e)]
      simp

theorem foldTrace_append_inert (es : List RawEvent) :
    ∀ (pre : List LogEntry) (cur : LogEntry),
      foldTrace (pre ++ [cur]) es = foldTrace [cur] es := by
  induction es with
  | nil => intro pre cur; rfl
  | cons e es ih =>
    intro pre cur
    show (stepLogged (pre ++ [cur]) e).2 ++ foldTrace (stepLogged (pre ++ [cur]) e).1 es
        = (stepLogged [cur] e).2 ++ foldTrace (stepLogged [cur] e).1 es
    by_cases h : cur.etype = e.etype
    · have h1 : stepLogged (pre ++ [cur]) e = (pre ++ [bumpCount cur], []) := by
        simp [stepLogged, h]
      have h2 : stepLogged [cur] e = ([bumpCount cur], []) := by
        simp [stepLogged, h]
      rw [h1, h2]
      show foldTrace (pre ++ [bumpCount cur]) es = foldTrace [bumpCount cur] es
      exact ih pre (bumpCount cur)
    · have h1 : stepLogged (pre ++ [cur]) e = ((pre ++ [cur]) ++ [initEntry e], typeEffects e) := by
        simp [stepLogged, h]
      have h2 : stepLogged [cur] e = ([cur] ++ [initEntry e], typeEffects e) := by
        simp [stepLogged, h]
      rw [h1, h2]
      show typeEffects e ++ foldTrace ((pre ++ [cur]) ++ [initEntry e]) es
          = typeEffects e ++ foldTrace ([cur] ++ [initEntry e]) es
      rw [ih (pre ++ [cur]) (initEntry e), ih [cur] (initEntry e)]

theorem eventLog_def (es : List RawEvent) : eventLog es = foldLog [] es :=
  runAgg_log_eq_foldLog es (AggState.mk [] [] [])

theorem effectsTrace_def (es : List RawEvent) : effectsTrace es = foldTrace [] es := by
  have h := runAgg_trace_eq_foldTrace es (AggState.mk [] [] [])
  simpa [effectsTrace, runAgg] using h

theorem foldLog_run (es : List RawEvent) :
    ∀ cur : LogEntry,
      foldLog [cur] es =
        bumpN cur (es.takeWhile (sameType cur.etype)).length ::
          foldLog [] (es.dropWhile (sameType cur.etype)) := by
  induction es with
  | nil =>
    intro cur
    rfl
  | cons e es ih =>
    intro cur
    by_cases h : e.etype = cur.etype
    · have h1 : (stepLogged [cur] e).1 = [bumpCount cur] := by
        simp [stepLogged, h.symm]
      have h2 : foldLog [cur] (e :: es) = foldLog [bumpCount cur] es := by
        show foldLog (stepLogged [cur] e).1 es = _
        rw [h1]
      rw [h2, ih (bumpCount cur)]
      have he : (bumpCount cur).etype = cur.etype := rfl
      rw [he]
      have ht : (e :: es).takeWhile (sameType cur.etype) =
          e :: es.takeWhile (sameType cur.etype) := by
        simp [List.takeWhile_cons, sameType, h]
      have hd : (e :: es).dropWhile (sameType cur.etype) =
          es.dropWhile (sameType cur.etype) := by
        simp [List.dropWhile_cons, sameType, h]
      rw [ht, hd]
      rfl
    · have h' : ¬cur.etype = e.etype := fun hx => h hx.symm
      have h1 : (stepLogged [cur] e).1 = [cur] ++ [initEntry e] := by
        simp [stepLogged, h']
      have h2 : foldLog [cur] (e :: es) = foldLog ([cur] ++ [initEntry e]) es := by
        show foldLog (stepLogged [cur] e).1 es = _
        rw [h1]
      rw [h2, foldLog_append_inert es [cur] (initEntry e)]
      have ht : (e :: es).takeWhile (sameType cur.etype) = [] := by
        simp [List.takeWhile_cons, sameType, h]
      have hd : (e :: es).dropWhile (sameType cur.etype) = e :: es := by
        simp [List.dropWhile_cons, sameType, h]
      rw [ht, hd]
      show [cur] ++ foldLog [initEntry e] es = cur :: foldLog [] (e :: es)
      have h3 : foldLog [] (e :: es) = foldLog [initEntry e] es := rfl
      rw [h3]
      rfl

theorem foldTrace_run (es : List RawEvent) :
    ∀ cur : LogEntry,
      foldTrace [cur] es = foldTrace [] (es.dropWhile (sameType cur.etype)) := by
  induction es with
  | nil =>
    intro cur
    rfl
  | cons e es ih =>
    intro cur
    by_cases h : e.etype = cur.etype
    · have h1 : stepLogged [cur] e = ([bumpCount cur], []) := by
        simp [stepLogged, h.symm]
      have h2 : foldTrace [cur] (e :: es) = foldTrace [bumpCount cur] es := by
        show (stepLogged [cur] e).2 ++ foldTrace (stepLogged [cur] e).1 es = _
        rw [h1]
        rfl
      have hd : (e :: es).dropWhile (sameType cur.etype) =
          es.dropWhile (sameType cur.etype) := by
        simp [List.dropWhile_cons, sameType, h]
      rw [h2, hd]
      have he : (bumpCount cur).etype = cur.etype := rfl
      rw [ih (bumpCount cur), he]
    · have h' : ¬cur.etype = e.etype := fun hx => h hx.symm
      have h1 : stepLogged [cur] e = ([cur] ++ [initEntry e], typeEffects e) := by
        simp [stepLogged, h']
      have h2 : foldTrace [cur] (e :: es) =
          typeEffects e ++ foldTrace ([cur] ++ [initEntry e]) es := by
        show (stepLogged [cur] e).2 ++ foldTrace (stepLogged [cur] e).1 es = _
        rw [h1]
      have hd : (e :: es).dropWhile (sameType cur.etype) = e :: es := by
        simp [List.dropWhile_cons, sameType, h]
      rw [h2, foldTrace_append_inert es [cur] (initEntry e), hd]
      show typeEffects e ++ foldTrace [initEntry e] es
          = (stepLogged [] e).2 ++ foldTrace (stepLogged [] e).1 es
      rfl

theorem entryOfRun_eq_bumpN (e : RawEvent) (ts : List RawEvent) :
    bumpN (initEntry e) ts.length = entryOfRun (e :: ts) := by
  cases hts : ts.length with
  | zero =>
    simp only [entryOfRun, hts, if_pos rfl]
    rfl
  | succ k =>
    rw [bumpN_succ_closed]
    simp [entryOfRun, hts, initEntry]

theorem eventLog_eq_runs_aux (n : Nat) :
    ∀ es : List RawEvent, es.length ≤ n →
      eventLog es = (chunkRuns es).map entryOfRun := by
  induction n with
  | zero =>
    intro es h
    have hnil : es = [] := List.eq_nil_of_length_eq_zero (Nat.le_zero.mp h)
    subst hnil
    simp [eventLog, runAgg, chunkRuns]
  | succ n ih =>
    intro es h
    match es with
    | [] => simp [eventLog, runAgg, chunkRuns]
    | e :: es2 =>
      have hlen : (es2.dropWhile (sameType e.etype)).length ≤ n := by
        have hs := (List.dropWhile_suffix (l := es2) (sameType e.etype)).length_le
        have hh : es2.length + 1 ≤ n + 1 := h
        omega
      have hrec := ih (es2.dropWhile (sameType e.etype)) hlen
      have h0 : eventLog (e :: es2) = foldLog [initEntry e] es2 := by
        rw [eventLog_def]
        rfl
      have he : (initEntry e).etype = e.etype := rfl
      rw [h0, foldLog_run es2 (initEntry e), he, ← eventLog_def, hrec,
        entryOfRun_eq_bumpN]
      rw [chunkRuns]
      rfl

theorem effectsTrace_eq_runs_aux (n : Nat) :
    ∀ es : List RawEvent, es.length ≤ n →
      effectsTrace es = ((chunkRuns es).map runEffects).flatten := by
  induction n with
  | zero =>
    intro es h
    have hnil : es = [] := List.eq_nil_of_length_eq_zero (Nat.le_zero.mp h)
    subst hnil
    simp [effectsTrace, runAgg, chunkRuns]
  | succ n ih =>
    intro es h
    match es with
    | [] => simp [effectsTrace, runAgg, chunkRuns]
    | e :: es2 =>
      have hlen : (es2.dropWhile (sameType e.etype)).length ≤ n := by
        have hs := (List.dropWhile_suffix (l := es2) (sameType e.etype)).length_le
        have hh : es2.length + 1 ≤ n + 1 := h
        omega
      have hrec := ih (es2.dropWhile (sameType e.etype)) hlen
      have h0 : effectsTrace (e :: es2) =
          typeEffects e ++ foldTrace [initEntry e] es2 := by
        rw [effectsTrace_def]
        rfl
      have he : (initEntry e).etype = e.etype := rfl
      rw [h0, foldTrace_run es2 (initEntry e), he, ← effectsTrace_def, hrec,
        chunkRuns]
      rfl

/-- Two consecutive server events of the same type, as produced by an audio
delta flood. -/
def deltaEventA : RawEvent :=
  { time := "2024-01-01T00:00:00.000Z", source := EventSource.server,
    etype := "response.audio.delta", rate_limits := none }

/-- Second consecutive audio delta event. -/
def deltaEventB : RawEvent :=
  { time := "2024-01-01T00:00:00.050Z", source := EventSource.server,
    etype := "response.audio.delta", rate_limits := none }

/-- First of two consecutive speech-started events. -/
def spEventA : RawEvent :=
  { time := "2024-01-01T00:00:01.000Z", source := EventSource.server,
    etype := "input_audio_buffer.speech_started", rate_limits := none }

/-- Second consecutive speech-started event. -/
def spEventB : RawEvent :=
  { time := "2024-01-01T00:00:01.200Z", source := EventSource.server,
    etype := "input_audio_buffer.speech_started", rate_limits := none }

/-- A `requests` rate-limit entry with a 125-second reset interval. -/
def rlEntry125 : RateLimitEntry :=
  { name := "requests", limit := some 1000, remaining := some 999,
    reset_seconds := some 125, reset_minutes := none }

/-- A `requests` rate-limit entry with a 300-second reset interval. -/
def rlEntry300 : RateLimitEntry :=
  { name := "requests", limit := some 1000, remaining := some 998,
    reset_seconds := some 300, reset_minutes := none }

/-- A rate-limit update event carrying `rlEntry125`. -/
def rlEvent125 : RawEvent :=
  { time := "2024-01-01T00:00:02.000Z", source := EventSource.server,
    etype := "rate_limits.updated", rate_limits := some [rlEntry125] }

/-- A rate-limit update event carrying `rlEntry300`, arriving immediately
after `rlEvent125`. -/
def rlEvent300 : RawEvent :=
  { time := "2024-01-01T00:00:02.100Z", source := EventSource.server,
    etype := "rate_limits.updated", rate_limits := some [rlEntry300] }

/-- C1 counterexample: for the maximal run of the two consecutive
same-type events `deltaEventA, deltaEventB` (run length n = 2), the log
holds exactly one entry, but its count field is `some 1`, not `some 2` as
the claim requires: the merge counter starts absent and counts only the
merged events beyond the first. -/
theorem c1_run_count_counterexample :
    (eventLog [deltaEventA, deltaEventB]).length = 1 ∧
    (eventLog [deltaEventA, deltaEventB]).map (fun l => l.count) = [some 1] ∧
    ¬ (eventLog [deltaEventA, deltaEventB]).map (fun l => l.count) = [some 2] := by
  decide

/-- C1 (amended): the event log of any observed sequence is exactly one
entry per maximal run of consecutive same-type events, in run order; each
entry carries the envelope of the run's first event (so it sits where the
first event of the run arrived), and its count field is absent for a run
of length 1 and equals n - 1 for a run of length n >= 2.  An event whose
type differs from the immediately preceding log entry always starts a new
entry (a new run). -/
theorem c1_run_aggregation (es : List RawEvent) :
    eventLog es = (chunkRuns es).map entryOfRun :=
  eventLog_eq_runs_aux es.length es (le_refl _)

/-- C4 counterexample: two consecutive speech-started events trigger the
modality-reset side effect only once — the second event is merged into the
preceding log entry and the merge branch runs no side effect, refuting the
claim that the side effect fires for every observed event of the
triggering type independently of aggregation. -/
theorem c4_side_effect_counterexample :
    ([spEventA, spEventB].countP
      (fun e => e.etype = "input_audio_buffer.speech_started") = 2) ∧
    effectsTrace [spEventA, spEventB] =
      [SideEffect.updateModalities ["audio", "text"]] ∧
    ¬ (effectsTrace [spEventA, spEventB]).length = 2 := by
  decide

/-- C4 (amended): the event-type-triggered side effects (the modality
reconfiguration on speech-started, the rate-limit projection on a
rate-limit update) fire exactly once per maximal run of consecutive
same-type events, namely for the run's first event, which is appended as a
new log entry; events merged into the preceding entry do not fire them. -/
theorem c4_side_effects_once_per_run (es : List RawEvent) :
    effectsTrace es = ((chunkRuns es).map runEffects).flatten :=
  effectsTrace_eq_runs_aux es.length es (le_refl _)

theorem typeEffects_malformed (e : RawEvent)
    (hshape : e.rate_limits = none ∨
      ∃ ls, e.rate_limits = some ls ∧
        ls.find? (fun r => r.name = "requests") = none) :
    typeEffects e = [] ∨
      typeEffects e = [SideEffect.updateModalities ["audio", "text"]] := by
  unfold typeEffects
  rcases hshape with h0 | ⟨ls, hls, hfind⟩
  · rw [h0]
    by_cases h1 : e.etype = "input_audio_buffer.speech_started" <;>
      by_cases h2 : e.etype = "rate_limits.updated" <;>
      simp [h1, h2]
  · rw [hls]
    by_cases h1 : e.etype = "input_audio_buffer.speech_started" <;>
      by_cases h2 : e.etype = "rate_limits.updated" <;>
      simp [h1, h2, hfind]

theorem foldMem_modalities_only (effs : List SideEffect)
    (h : effs = [] ∨ effs = [SideEffect.updateModalities ["audio", "text"]]) :
    ∀ m : MemoryMap, effs.foldl applyMemEffect m = m := by
  rcases h with h | h <;> subst h <;> intro m <;> rfl

/-- C5 (amended): when a rate-limit update event that is appended as a new
log entry (its type differs from the immediately preceding entry) carries a
limit entry named "requests", the aggregator stores under the fixed key
`requests_rate_limit` the entry with `reset_minutes` equal to the ceiling
of `reset_seconds / 60` and with no `reset_seconds` field; and an event
lacking the expected shape (no `rate_limits` payload, or no "requests"
entry in it) leaves the memory map unchanged while the event is still
logged — the pipeline does not fail. -/
theorem c5_rate_limit_projection :
    (∀ (s : AggState) (e : RawEvent) (ls : List RateLimitEntry)
        (rl : RateLimitEntry) (sec : Nat),
      (∀ lastE, s.log.getLast? = some lastE → lastE.etype ≠ e.etype) →
      e.etype = "rate_limits.updated" →
      e.rate_limits = some ls →
      ls.find? (fun r => r.name = "requests") = some rl →
      rl.reset_seconds = some sec →
      (stepAgg s e).mem =
        setMemKey s.mem "requests_rate_limit"
          (MemVal.limitEntry (formatRequestsLimit rl)) ∧
      (formatRequestsLimit rl).reset_minutes = some ((sec + 59) / 60) ∧
      (formatRequestsLimit rl).reset_seconds = none ∧
      (formatRequestsLimit rl).name = rl.name) ∧
    (∀ (s : AggState) (e : RawEvent),
      (e.rate_limits = none ∨
        ∃ ls, e.rate_limits = some ls ∧
          ls.find? (fun r => r.name = "requests") = none) →
      (stepAgg s e).mem = s.mem ∧
      (stepAgg s e).log = (stepLogged s.log e).1) := by
  constructor
  · intro s e ls rl sec hlast htype hls hfind hsec
    have heff : (stepLogged s.log e).2 = typeEffects e := by
      cases hg : s.log.getLast? with
      | none => simp [stepLogged, hg]
      | some lastE =>
        have hne := hlast lastE hg
        simp [stepLogged, hg, hne]
    have hty : typeEffects e =
        [SideEffect.storeMemKey "requests_rate_limit"
          (MemVal.limitEntry (formatRequestsLimit rl))] := by
      unfold typeEffects
      rw [htype, hls]
      simp [hfind]
    refine ⟨?_, ?_, rfl, rfl⟩
    · show (stepLogged s.log e).2.foldl applyMemEffect s.mem = _
      rw [heff, hty]
      rfl
    · simp [formatRequestsLimit, hsec, ceilDiv60]
  · intro s e hshape
    refine ⟨?_, rfl⟩
    show (stepLogged s.log e).2.foldl applyMemEffect s.mem = s.mem
    have hty := typeEffects_malformed e hshape
    have h2 : (stepLogged s.log e).2 = [] ∨
        (stepLogged s.log e).2 = typeEffects e := by
      unfold stepLogged
      cases s.log.getLast? with
      | none => right; rfl
      | some lastE =>
        by_cases hx : lastE.etype = e.etype <;> simp [hx]
    rcases h2 with h2 | h2
    · rw [h2]
      rfl
    · rw [h2]
      exact foldMem_modalities_only (typeEffects e) hty s.mem

/-- C5 witness: the amended projection theorem applied to the concrete
input with reset_seconds = 125, starting from the reset aggregator state:
the stored entry has reset_minutes = 3 and no reset_seconds field. -/
theorem c5_rate_limit_projection_witness :
    (stepAgg (AggState.mk [] [] []) rlEvent125).mem =
      setMemKey [] "requests_rate_limit"
        (MemVal.limitEntry (formatRequestsLimit rlEntry125)) ∧
    (formatRequestsLimit rlEntry125).reset_minutes = some 3 ∧
    (formatRequestsLimit rlEntry125).reset_seconds = none ∧
    (formatRequestsLimit rlEntry125).name = "requests" := by
  have h := c5_rate_limit_projection.1 (AggState.mk [] [] []) rlEvent125
    [rlEntry125] rlEntry125 125
    (fun lastE hl => Option.noConfusion hl) rfl rfl (by decide) rfl
  exact ⟨h.1, h.2.1, h.2.2.1, h.2.2.2⟩

/-- C5 counterexample to the claim as stated: the claim quantifies over
every rate-limit update event carrying a "requests" entry, but a
rate-limit event arriving immediately after another one is merged into the
preceding log entry and stores nothing: after `rlEvent125, rlEvent300`
the memory still holds the projection of the first event (reset_minutes 3),
not the projection of the second (whose reset interval of 300 seconds
would give reset_minutes 5). -/
theorem c5_merged_event_counterexample :
    (runAgg [rlEvent125, rlEvent300]).mem =
      [("requests_rate_limit", MemVal.limitEntry (formatRequestsLimit rlEntry125))] ∧
    (formatRequestsLimit rlEntry125).reset_minutes = some 3 ∧
    ceilDiv60 300 = 5 ∧
    ¬ (runAgg [rlEvent125, rlEvent300]).mem =
      [("requests_rate_limit", MemVal.limitEntry (formatRequestsLimit rlEntry300))] := by
  decide

/-- A pending browser timer created by `setTimeout`.  The only timer the
orchestrator ever creates is the reconnect timer of the `disconnected`
handler, whose callback awaits `connectConversation` (the connect logic)
inside a try/catch; the timer records its delay in milliseconds. -/
structure PendingTimer where
  delayMs : Nat
deriving DecidableEq, Repr

/-- Connection-manager state: the connected flag, the queue of pending
`setTimeout` timers in creation order, and how many times the
`connectConversation` logic has been invoked by a fired reconnect timer. -/
structure ConnState where
  isConnected : Bool
  pending : List PendingTimer
  connectAttempts : Nat
deriving DecidableEq, Repr

/-- The `client.on('disconnected')` handler: set the connected flag to
false and schedule exactly one reconnect via `setTimeout(..., 3000)`.
The handler stores no timer id and clears nothing. -/
def onDisconnected (s : ConnState) : ConnState :=
  { s with isConnected := false,
           pending := s.pending ++ [PendingTimer.mk 3000] }

/-- `disconnectConversation`: resets the connected flag and the
conversation, event-log, memory and map state, calls `client.disconnect()`,
ends the recorder and interrupts the player.  It contains no
`clearTimeout`, so the pending-timer queue is left untouched. -/
def disconnectConversation (s : ConnState) : ConnState :=
  { s with isConnected := false }

/-- Expiry of the earliest pending timer: the browser runs the stored
callback, which awaits `connectConversation` — the same logic as a user
connect — counting one reconnect attempt (a failure inside it is caught
and logged, not rethrown). -/
def fireEarliestTimer (s : ConnState) : ConnState :=
  match s.pending with
  | [] => s
  | _ :: rest =>
    { isConnected := true, pending := rest,
      connectAttempts := s.connectAttempts + 1 }

/-- External stimuli of the connection manager. -/
inductive ConnEvent
  | transportDrop
  | userDisconnect
  | timerFires
deriving DecidableEq, Repr

/-- Dispatch of one stimulus to the corresponding handler. -/
def connStep (s : ConnState) : ConnEvent → ConnState
  | ConnEvent.transportDrop => onDisconnected s
  | ConnEvent.userDisconnect => disconnectConversation s
  | ConnEvent.timerFires => fireEarliestTimer s

/-- Connection-manager run over a stimulus sequence. -/
def runConn (es : List ConnEvent) (s : ConnState) : ConnState :=
  es.foldl connStep s

/-- A freshly connected session with no pending timer. -/
def connInit : ConnState :=
  { isConnected := true, pending := [], connectAttempts := 0 }

/-- C2 counterexample: after a transport drop, the single scheduled
3-second reconnect timer survives a manual `disconnect()` issued before
the delay elapses — `disconnectConversation` contains no `clearTimeout` —
and when it expires the reconnect attempt runs (one `connectConversation`
invocation), refuting the claim that the user disconnect prevents the
scheduled attempt from running. -/
theorem c2_reconnect_not_cancelled_counterexample :
    (runConn [ConnEvent.transportDrop, ConnEvent.userDisconnect] connInit).pending
      = [PendingTimer.mk 3000] ∧
    (runConn [ConnEvent.transportDrop, ConnEvent.userDisconnect,
      ConnEvent.timerFires] connInit).connectAttempts = 1 ∧
    ¬ (runConn [ConnEvent.transportDrop, ConnEvent.userDisconnect,
      ConnEvent.timerFires] connInit).connectAttempts = 0 := by
  decide

/-- C2 (amended): an unsolicited transport drop schedules exactly one
reconnect attempt after a fixed 3-second delay, whose callback invokes the
same logic as connect(); but a user `disconnect()` issued before the delay
elapses does not cancel it — the timer queue is untouched and, once the
delay elapses, the reconnect attempt still runs. -/
theorem c2_single_scheduled_reconnect (s : ConnState) :
    (onDisconnected s).pending = s.pending ++ [PendingTimer.mk 3000] ∧
    (disconnectConversation (onDisconnected s)).pending
      = s.pending ++ [PendingTimer.mk 3000] ∧
    (s.pending = [] →
      (fireEarliestTimer (disconnectConversation (onDisconnected s))).connectAttempts
        = s.connectAttempts + 1) := by
  refine ⟨rfl, rfl, ?_⟩
  intro hp
  simp [onDisconnected, disconnectConversation, fireEarliestTimer, hp]

/-- C2 witness: the amended reconnect theorem applied to the fresh
connected state. -/
theorem c2_single_scheduled_reconnect_witness :
    (onDisconnected connInit).pending = [PendingTimer.mk 3000] ∧
    (disconnectConversation (onDisconnected connInit)).pending
      = [PendingTimer.mk 3000] ∧
    (fireEarliestTimer (disconnectConversation (onDisconnected connInit))).connectAttempts
      = 1 := by
  have h := c2_single_scheduled_reconnect connInit
  exact ⟨h.1, h.2.1, h.2.2 rfl⟩

/-- Outcome of running an asynchronous tool handler on one input: a
returned value, or a thrown exception carrying a message (exceptions from
network calls the handler awaits surface the same way). -/
inductive HandlerOutcome (b : Type)
  | ret (v : b)
  | thrown (msg : String)
deriving DecidableEq, Repr

/-- A tool invocation result object: either the handler's value or an
object whose `error` field carries the exception message. -/
inductive ToolResult (b : Type)
  | value (v : b)
  | errorObj (msg : String)
deriving DecidableEq, Repr

/-- Whether a result object carries an `error` field. -/
def ToolResult.hasErrorField {b : Type} : ToolResult b → Bool
  | ToolResult.errorObj _ => true
  | ToolResult.value _ => false

/-- The promise a tool invocation hands back to the protocol layer. -/
inductive ToolPromise (g : Type)
  | resolved (v : g)
  | rejected (msg : String)
deriving DecidableEq, Repr

/-- Modelled from the spec: the tool dispatch boundary of the protocol
session API (spec section 4.5).  The dispatcher implementation lives in
the `@openai/realtime-api-beta` client library, not under the repository
sources; per the spec, any exception the handler throws is caught at this
boundary and converted into an object with an `error` field, so the
promise always resolves. -/
def invokeTool {a b : Type} (h : a → HandlerOutcome b) (p : a) :
    ToolPromise (ToolResult b) :=
  match h p with
  | HandlerOutcome.ret v => ToolPromise.resolved (ToolResult.value v)
  | HandlerOutcome.thrown m => ToolPromise.resolved (ToolResult.errorObj m)

/-- The weather payload the `get_weather` handler extracts from the
open-meteo response. -/
structure WeatherJson where
  temperature_2m : Int
  temperature_units : String
  wind_speed_10m : Int
  wind_speed_units : String
deriving DecidableEq, Repr

/-- The `get_weather` tool handler: sets the marker and coordinates, then
awaits a forecast fetch.  It has no internal try/catch, so a failing fetch
(modelled as the `Except.error` case of the fetch outcome) propagates as a
thrown exception to the dispatch boundary. -/
def get_weather_handler (fetchOutcome : Except String WeatherJson) :
    HandlerOutcome WeatherJson :=
  match fetchOutcome with
  | Except.ok j => HandlerOutcome.ret j
  | Except.error msg => HandlerOutcome.thrown msg

/-- Result shape of the `get_time` tool handler. -/
inductive TimeResult
  | ok (location : String) (localTime : String)
  | err (msg : String)
deriving DecidableEq, Repr

/-- The predefined mapping of common location names to timezone
identifiers used by the `get_time` handler. -/
def timezoneMapping : List (String × String) :=
  [("New York", "America/New_York"),
   ("Mountain View", "America/Los_Angeles"),
   ("Sioux Falls", "US/Central"),
   ("London", "Europe/London"),
   ("Tokyo", "Asia/Tokyo"),
   ("UTC", "Etc/UTC")]

/-- The `get_time` tool handler: maps the location through
`timezoneMapping` (falling back to the raw input when unknown), awaits the
worldtimeapi fetch for that timezone, and returns the location with the
fetched local time; its internal try/catch converts any failure into a
returned object with an `error` field, so this handler never throws. -/
def get_time_handler (location : String)
    (fetch : String → Except String String) : HandlerOutcome TimeResult :=
  let timezone :=
    (((timezoneMapping.find? (fun p => p.1 = location)).map
      (fun p => p.2)).getD location)
  match fetch timezone with
  | Except.ok dt => HandlerOutcome.ret (TimeResult.ok location dt)
  | Except.error msg =>
    HandlerOutcome.ret (TimeResult.err
      ("Could not retrieve time for the location " ++ location ++
        ". Error: " ++ msg))

/-- C3: for every tool handler and every input, invoking the tool through
the dispatch boundary yields a promise that resolves (never rejects), and
whenever the handler throws, the resolved value is an object carrying an
`error` field with the thrown message — a handler exception never escapes
the dispatch boundary. -/
theorem c3_tool_dispatch_catches {a b : Type} (h : a → HandlerOutcome b)
    (p : a) :
    (∃ r : ToolResult b, invokeTool h p = ToolPromise.resolved r) ∧
    (∀ m, h p = HandlerOutcome.thrown m →
      invokeTool h p = ToolPromise.resolved (ToolResult.errorObj m) ∧
      (ToolResult.errorObj m : ToolResult b).hasErrorField = true) := by
  constructor
  · cases hh : h p with
    | ret v =>
      exact ⟨ToolResult.value v, by rw [invokeTool, hh]⟩
    | thrown m =>
      exact ⟨ToolResult.errorObj m, by rw [invokeTool, hh]⟩
  · intro m hm
    rw [invokeTool, hm]
    exact ⟨rfl, rfl⟩

/-- C3 witness: the dispatch theorem applied to the repository's
`get_weather` handler on a failing fetch — the promise resolves with an
error-field object rather than rejecting. -/
theorem c3_tool_dispatch_catches_witness :
    invokeTool get_weather_handler (Except.error "Failed to fetch") =
      ToolPromise.resolved (ToolResult.errorObj "Failed to fetch") ∧
    (ToolResult.errorObj "Failed to fetch" : ToolResult WeatherJson).hasErrorField
      = true :=
  (c3_tool_dispatch_catches get_weather_handler
    (Except.error "Failed to fetch")).2 "Failed to fetch" rfl

/-- Operations of the push-to-talk capture path, in the order they are
awaited: the playback interruption, the optional truncation report, the
start of recording, and the frames later delivered to the capture
callback. -/
inductive CaptureAction
  | interrupt
  | cancelResponse (trackId : String) (offset : Nat)
  | recordStart
  | frame (n : Nat)
deriving DecidableEq, Repr

/-- The ordered awaited operations of `startRecording`: first
`wavStreamPlayer.interrupt()`; then, when the interrupt reported a
truncated playing track (its return value, modelled by `playing`: the
playing track id and reached sample offset, or `none` when nothing was
playing — the interrupt contract of spec section 4.3, the wavtools
implementation not being under the repository sources), the truncation
report `client.cancelResponse(trackId, offset)`; and only then
`wavRecorder.record(...)`. -/
def startRecordingOps (playing : Option (String × Nat)) : List CaptureAction :=
  [CaptureAction.interrupt] ++
  (match playing with
   | some (tid, off) => [CaptureAction.cancelResponse tid off]
   | none => []) ++
  [CaptureAction.recordStart]

/-- A capture session's action trace: recording delivers frames to the
`onFrame` callback only once `record` has been awaited, so every delivered
frame follows the complete `startRecording` sequence. -/
def captureTrace (playing : Option (String × Nat)) (frames : List Nat) :
    List CaptureAction :=
  startRecordingOps playing ++ frames.map CaptureAction.frame

/-- C6: starting capture first awaits the playback interruption; when a
track was playing, the truncation point (track id and sample offset) is
reported via cancelResponse before recording starts; and no audio frame is
delivered before the whole interruption sequence has resolved — the trace
is exactly the interrupt/cancel/record prefix (which contains no frame)
followed by all frames. -/
theorem c6_interrupt_resolves_before_frames (playing : Option (String × Nat))
    (frames : List Nat) :
    ((captureTrace playing frames).take (startRecordingOps playing).length
      = startRecordingOps playing) ∧
    ((captureTrace playing frames).drop (startRecordingOps playing).length
      = frames.map CaptureAction.frame) ∧
    (∀ a ∈ startRecordingOps playing, ∀ n : Nat, a ≠ CaptureAction.frame n) ∧
    (startRecordingOps playing).head? = some CaptureAction.interrupt ∧
    (∀ tid off, playing = some (tid, off) →
      startRecordingOps playing
        = [CaptureAction.interrupt, CaptureAction.cancelResponse tid off,
           CaptureAction.recordStart]) ∧
    (playing = none →
      startRecordingOps playing
        = [CaptureAction.interrupt, CaptureAction.recordStart]) := by
  refine ⟨?_, ?_, ?_, ?_, ?_, ?_⟩
  · show List.take (startRecordingOps playing).length
        (startRecordingOps playing ++ frames.map CaptureAction.frame) = _
    exact List.take_left _ _
  · exact List.drop_left _ _
  · rcases playing with _ | ⟨tid, off⟩
    · intro a ha n
      simp [startRecordingOps] at ha
      rcases ha with rfl | rfl <;> simp
    · intro a ha n
      simp [startRecordingOps] at ha
      rcases ha with rfl | rfl | rfl <;> simp
  · rcases playing with _ | ⟨tid, off⟩ <;> rfl
  · intro tid off hp
    subst hp
    rfl
  · intro hp
    subst hp
    rfl

/-- C6 witness: the interrupt-then-capture theorem at a concrete playing
track and one delivered frame. -/
theorem c6_interrupt_resolves_before_frames_witness :
    startRecordingOps (some ("trackA", 480))
      = [CaptureAction.interrupt, CaptureAction.cancelResponse "trackA" 480,
         CaptureAction.recordStart] ∧
    (captureTrace (some ("trackA", 480)) [7]).drop
        (startRecordingOps (some ("trackA", 480))).length
      = [CaptureAction.frame 7] := by
  have h := c6_interrupt_resolves_before_frames (some ("trackA", 480)) [7]
  exact ⟨h.2.2.2.2.1 "trackA" 480 rfl, h.2.1⟩

/-- The observable result of the `set_memory` tool handler. -/
inductive SetMemoryOutcome
  | okTrue
  | errorMsg (msg : String)
deriving DecidableEq, Repr

/-- The record of one `set_memory` invocation: the memory map after the
in-memory merge, which persistence endpoints were attempted, whether the
local-storage backup was written, whether the local-only warning was
logged, and the value the handler's promise resolves with. -/
structure SetMemoryRun where
  mem : MemoryMap
  relayAttempted : Bool
  memServerAttempted : Bool
  localStorageWritten : Bool
  warnedLocalOnly : Bool
  result : SetMemoryOutcome
deriving DecidableEq, Repr

/-- The `set_memory` tool handler: merge the key/value into `memoryKv`;
try the relay endpoint when one is configured; try the memory-server
endpoint only if nothing has been saved yet; attempt the localStorage
backup write unconditionally; warn when only localStorage holds the map;
and resolve with the ok object.  The two endpoint fetches have their own
inner catches, so their failures are only logged; but the localStorage
write sits inside the handler's outer try, whose catch returns the object
with error "Failed to save memory" — so a failing backup write
(`localStorageOk = false`, e.g. quota exceeded) resolves with that error
object instead, the in-memory merge having already happened and the
local-only warning not being reached. -/
def set_memory_handler (mem : MemoryMap) (key value : String)
    (relayConfigured relayOk memServerOk localStorageOk : Bool) :
    SetMemoryRun :=
  let newKv := setMemKey mem key (MemVal.str value)
  let savedAfterRelay := relayConfigured && relayOk
  let saved := savedAfterRelay || (!savedAfterRelay && memServerOk)
  if localStorageOk then
    { mem := newKv,
      relayAttempted := relayConfigured,
      memServerAttempted := !savedAfterRelay,
      localStorageWritten := true,
      warnedLocalOnly := !saved,
      result := SetMemoryOutcome.okTrue }
  else
    { mem := newKv,
      relayAttempted := relayConfigured,
      memServerAttempted := !savedAfterRelay,
      localStorageWritten := false,
      warnedLocalOnly := false,
      result := SetMemoryOutcome.errorMsg "Failed to save memory" }

/-- C7 counterexample: the claim fails on the code at two concrete inputs.
With the relay configured and reachable, the primary endpoint persists the
map (the fallback is not even attempted), yet the local cache is still
written — refuting "local-only cache as last resort", under which a
successful primary write would leave the local cache untouched.  And with
the localStorage backup write failing, the handler's outer catch resolves
with the error object — refuting "resolves with a success result
regardless of whether any persistence step succeeded" and "a persistence
failure is ... never surfaced as a tool error". -/
theorem c7_local_cache_counterexample :
    (set_memory_handler [] "name" "ada" true true true true).relayAttempted
      = true ∧
    (set_memory_handler [] "name" "ada" true true true true).memServerAttempted
      = false ∧
    (set_memory_handler [] "name" "ada" true true true true).localStorageWritten
      = true ∧
    (set_memory_handler [] "name" "ada" true true true false).result
      = SetMemoryOutcome.errorMsg "Failed to save memory" ∧
    ¬ (set_memory_handler [] "name" "ada" true true true false).result
      = SetMemoryOutcome.okTrue := by
  decide

/-- C7 (amended): `set_memory` merges the key/value into the in-memory
MemoryMap in every case; it attempts the primary (relay) endpoint when
one is configured, attempts the fallback (memory-server) endpoint only
when the primary did not succeed, and always attempts the local-cache
backup write (not only as a last resort); an endpoint fetch failure is
caught, only logged (at most a local-only warning) and never surfaced —
the handler resolves with the success object regardless of the endpoint
outcomes whenever the local-cache write succeeds; but a failing
local-cache write reaches the handler's outer catch and resolves with an
object carrying the error "Failed to save memory". -/
theorem c7_set_memory_best_effort (mem : MemoryMap) (key value : String)
    (relayConfigured relayOk memServerOk localStorageOk : Bool) :
    (set_memory_handler mem key value relayConfigured relayOk memServerOk
        localStorageOk).mem
      = setMemKey mem key (MemVal.str value) ∧
    (set_memory_handler mem key value relayConfigured relayOk memServerOk
        localStorageOk).relayAttempted
      = relayConfigured ∧
    (set_memory_handler mem key value relayConfigured relayOk memServerOk
        localStorageOk).memServerAttempted
      = !(relayConfigured && relayOk) ∧
    (set_memory_handler mem key value relayConfigured relayOk memServerOk
        localStorageOk).localStorageWritten
      = localStorageOk ∧
    (localStorageOk = true →
      (set_memory_handler mem key value relayConfigured relayOk memServerOk
          localStorageOk).result
        = SetMemoryOutcome.okTrue ∧
      (set_memory_handler mem key value relayConfigured relayOk memServerOk
          localStorageOk).warnedLocalOnly
        = !(relayConfigured && relayOk
            || !(relayConfigured && relayOk) && memServerOk)) ∧
    (localStorageOk = false →
      (set_memory_handler mem key value relayConfigured relayOk memServerOk
          localStorageOk).result
        = SetMemoryOutcome.errorMsg "Failed to save memory" ∧
      (set_memory_handler mem key value relayConfigured relayOk memServerOk
          localStorageOk).warnedLocalOnly = false) := by
  cases localStorageOk
  · exact ⟨rfl, rfl, rfl, rfl, fun h => Bool.noConfusion h, fun _ => ⟨rfl, rfl⟩⟩
  · exact ⟨rfl, rfl, rfl, rfl, fun _ => ⟨rfl, rfl⟩, fun h => Bool.noConfusion h⟩

/-- C7 witness: the amended best-effort theorem at concrete inputs — with
the relay configured but unreachable and the backup write succeeding the
handler still resolves ok; with the backup write failing it resolves with
the error object; the merge happens in both cases. -/
theorem c7_set_memory_best_effort_witness :
    (set_memory_handler [] "name" "ada" true false true true).mem
      = [("name", MemVal.str "ada")] ∧
    (set_memory_handler [] "name" "ada" true false true true).result
      = SetMemoryOutcome.okTrue ∧
    (set_memory_handler [] "name" "ada" true false false false).result
      = SetMemoryOutcome.errorMsg "Failed to save memory" := by
  have h := c7_set_memory_best_effort [] "name" "ada" true false true true
  have h2 := c7_set_memory_best_effort [] "name" "ada" true false false false
  refine ⟨?_, (h.2.2.2.2.1 rfl).1, (h2.2.2.2.2.2 rfl).1⟩
  rw [h.1]
  decide

/-- A conversation item as seen by the `conversation.updated` handler:
its id, status, the optional raw audio payload of its formatted view, and
the optional decoded playable handle (`item.formatted.file`). -/
structure ConvItem where
  id : String
  status : String
  audio : Option (List Nat)
  file : Option Nat
deriving DecidableEq, Repr

/-- The decoded playable handle `WavRecorder.decode(audio, 24000, 24000)`
produces for an audio payload, modelled as a deterministic function of the
payload. -/
def decodeAudio (audio : List Nat) : Nat := audio.length

/-- Truthiness of `item.formatted.audio?.length`: the payload exists and
is non-empty. -/
def hasAudio (it : ConvItem) : Bool :=
  match it.audio with
  | some a => decide (a.length ≠ 0)
  | none => false

/-- The decode step of the `conversation.updated` handler: when the item's
status is completed and its formatted payload has audio, the payload is
decoded and the handle stored on the item.  The condition does not consult
`item.formatted.file`, so an already-present handle does not prevent a new
decode.  Returns the updated item and whether a decode was performed. -/
def onConversationUpdatedDecode (it : ConvItem) : ConvItem × Bool :=
  if it.status = "completed" ∧ hasAudio it = true then
    ({ it with file := some (decodeAudio (it.audio.getD [])) }, true)
  else
    (it, false)

/-- A completed audio item that already carries a decoded handle. -/
def alreadyDecodedItem : ConvItem :=
  { id := "item_001", status := "completed", audio := some [1, 2, 3],
    file := some 3 }

/-- C8 counterexample: a further conversation-update notification for a
completed audio item that already has a decoded handle decodes it again —
the handler's condition never checks for an existing handle, refuting the
claimed idempotence (decode exactly once per item). -/
theorem c8_decode_again_counterexample :
    alreadyDecodedItem.file = some 3 ∧
    (onConversationUpdatedDecode alreadyDecodedItem).2 = true ∧
    ¬ (onConversationUpdatedDecode alreadyDecodedItem).2 = false := by
  decide

/-- C8 (amended): the handler decodes a conversation item exactly when its
status is completed and its formatted payload has non-empty audio — on
every such notification, including when a decoded handle is already
present, in which case the handle is recomputed and overwritten rather
than skipped. -/
theorem c8_decode_on_every_completed_update (it : ConvItem) :
    ((onConversationUpdatedDecode it).2 = true ↔
      (it.status = "completed" ∧ hasAudio it = true)) ∧
    (∀ h : Nat, it.file = some h → it.status = "completed" →
      hasAudio it = true →
      (onConversationUpdatedDecode it).2 = true ∧
      (onConversationUpdatedDecode it).1.file
        = some (decodeAudio (it.audio.getD []))) := by
  constructor
  · unfold onConversationUpdatedDecode
    by_cases hc : it.status = "completed" ∧ hasAudio it = true <;> simp [hc]
  · intro h hfile hst hau
    unfold onConversationUpdatedDecode
    simp [hst, hau]

/-- C8 witness: the amended decode theorem applied to the already-decoded
completed item. -/
theorem c8_decode_on_every_completed_update_witness :
    (onConversationUpdatedDecode alreadyDecodedItem).2 = true ∧
    (onConversationUpdatedDecode alreadyDecodedItem).1.file = some 3 := by
  have h := (c8_decode_on_every_completed_update alreadyDecodedItem).2 3 rfl rfl
    (by decide)
  exact ⟨h.1, h.2⟩

/-- Status of the WavRecorder capture device
(`'ended' | 'paused' | 'recording'`). -/
inductive RecStatus
  | ended
  | paused
  | recording
deriving DecidableEq, Repr

/-- An operation issued by `changeTurnEndType`, in order: a recorder
transition or a `client.updateSession` carrying the new turn-detection
configuration (`none` models `turn_detection: null`, `some "server_vad"`
models the server-vad object). -/
inductive OrchestratorOp
  | recorderBegin
  | recorderRecord
  | recorderPause
  | recorderRelease
  | updateTurnDetection (cfg : Option String)
deriving DecidableEq, Repr

/-- The ordered operations of `changeTurnEndType(value)`: pause the
recorder first when switching to manual (`value = "none"`) while its
status is recording; update the session's turn detection; and restart
recording when switching to `server_vad` while the client is connected. -/
def changeTurnEndType (value : String) (recStatus : RecStatus)
    (connected : Bool) : List OrchestratorOp :=
  (if value = "none" ∧ recStatus = RecStatus.recording then
    [OrchestratorOp.recorderPause]
  else []) ++
  [OrchestratorOp.updateTurnDetection
    (if value = "none" then none else some "server_vad")] ++
  (if value = "server_vad" ∧ connected = true then
    [OrchestratorOp.recorderRecord]
  else [])

/-- Capture-device state: whether the input device is acquired, and the
delivery status. -/
structure RecorderState where
  deviceAcquired : Bool
  status : RecStatus
deriving DecidableEq, Repr

/-- Modelled from the spec: the WavRecorder contract of spec section 4.2
(the wavtools implementation is not under the repository sources) —
`begin` acquires the input device, `record` starts frame delivery,
`pause` stops delivery without releasing the device, `end` releases the
device; a session update does not touch the device. -/
def applyRecorderOp (r : RecorderState) : OrchestratorOp → RecorderState
  | OrchestratorOp.recorderBegin =>
    { deviceAcquired := true, status := RecStatus.paused }
  | OrchestratorOp.recorderRecord => { r with status := RecStatus.recording }
  | OrchestratorOp.recorderPause => { r with status := RecStatus.paused }
  | OrchestratorOp.recorderRelease =>
    { deviceAcquired := false, status := RecStatus.ended }
  | OrchestratorOp.updateTurnDetection _ => r

/-- Recorder state after a sequence of orchestrator operations. -/
def applyRecorderOps (r : RecorderState) (ops : List OrchestratorOp) :
    RecorderState :=
  ops.foldl applyRecorderOp r

/-- C9: switching to manual while actively recording pauses the recorder
before the session configuration is updated, issuing no device release,
so the device stays acquired with delivery paused; switching back to
server-vad while connected issues the session update followed by a plain
record, with no begin — frame delivery resumes without re-acquiring the
device. -/
theorem c9_turn_detection_switch (connected : Bool) (st : RecStatus) :
    (changeTurnEndType "none" RecStatus.recording connected
      = [OrchestratorOp.recorderPause,
         OrchestratorOp.updateTurnDetection none]) ∧
    (applyRecorderOps (RecorderState.mk true RecStatus.recording)
        (changeTurnEndType "none" RecStatus.recording connected)
      = RecorderState.mk true RecStatus.paused) ∧
    (OrchestratorOp.recorderRelease ∉
      changeTurnEndType "none" RecStatus.recording connected) ∧
    (connected = true →
      changeTurnEndType "server_vad" st connected
        = [OrchestratorOp.updateTurnDetection (some "server_vad"),
           OrchestratorOp.recorderRecord] ∧
      applyRecorderOps (RecorderState.mk true RecStatus.paused)
          (changeTurnEndType "server_vad" st connected)
        = RecorderState.mk true RecStatus.recording ∧
      OrchestratorOp.recorderBegin ∉
        changeTurnEndType "server_vad" st connected) := by
  have h1 : changeTurnEndType "none" RecStatus.recording connected
      = [OrchestratorOp.recorderPause,
         OrchestratorOp.updateTurnDetection none] := by
    simp [changeTurnEndType]
  refine ⟨h1, ?_, ?_, ?_⟩
  · rw [h1]
    rfl
  · rw [h1]
    decide
  · intro hc
    subst hc
    have h2 : changeTurnEndType "server_vad" st true
        = [OrchestratorOp.updateTurnDetection (some "server_vad"),
           OrchestratorOp.recorderRecord] := by
      rcases st <;> simp [changeTurnEndType]
    refine ⟨h2, ?_, ?_⟩
    · rw [h2]
      rfl
    · rw [h2]
      decide

/-- C9 witness: the switch theorem applied with the client connected and
the recorder previously paused. -/
theorem c9_turn_detection_switch_witness :
    changeTurnEndType "server_vad" RecStatus.paused true
      = [OrchestratorOp.updateTurnDetection (some "server_vad"),
         OrchestratorOp.recorderRecord] ∧
    applyRecorderOps (RecorderState.mk true RecStatus.paused)
        (changeTurnEndType "server_vad" RecStatus.paused true)
      = RecorderState.mk true RecStatus.recording := by
  have h := (c9_turn_detection_switch true RecStatus.paused).2.2.2 rfl
  exact ⟨h.1, h.2.1⟩

/-- Whitespace trim of the user input, modelling JavaScript
`String.prototype.trim` on the code points the inputs use. -/
def jsTrim (s : String) : String :=
  String.mk
    (((s.data.dropWhile Char.isWhitespace).reverse.dropWhile
      Char.isWhitespace).reverse)

/-- An operation `sendUserInput` issues to the realtime client. -/
inductive ClientOp
  | updateSessionModalities (ms : List String)
  | sendUserMessageText (text : String)
deriving DecidableEq, Repr

/-- `sendUserInput`: an input that trims to the empty string is rejected
up front (nothing sent, buffer unchanged); otherwise, when the client is
connected, the session modalities are first narrowed to text, then the
trimmed input is sent as an `input_text` user message, and the input
buffer is cleared; when the client is not connected an error is logged and
nothing is sent, the buffer keeping its value.  Returns the ordered client
operations and the new value of the `userInput` buffer. -/
def sendUserInput (userInput : String) (connected : Bool) :
    List ClientOp × String :=
  if jsTrim userInput = "" then
    ([], userInput)
  else if connected then
    ([ClientOp.updateSessionModalities ["text"],
      ClientOp.sendUserMessageText (jsTrim userInput)], "")
  else
    ([], userInput)

/-- C10: an input trimming to the empty string sends nothing and leaves
everything unchanged; a non-empty trimmed input with the client connected
issues exactly the text-only modality narrowing followed by the trimmed
user message and clears the buffer; with the client disconnected nothing
is sent and the buffer is unchanged. -/
theorem c10_send_user_input (input : String) (connected : Bool) :
    (jsTrim input = "" → sendUserInput input connected = ([], input)) ∧
    (jsTrim input ≠ "" → connected = true →
      sendUserInput input connected
        = ([ClientOp.updateSessionModalities ["text"],
            ClientOp.sendUserMessageText (jsTrim input)], "")) ∧
    (jsTrim input ≠ "" → connected = false →
      sendUserInput input connected = ([], input)) := by
  refine ⟨?_, ?_, ?_⟩
  · intro he
    simp [sendUserInput, he]
  · intro he hc
    subst hc
    simp [sendUserInput, he]
  · intro he hc
    subst hc
    simp [sendUserInput, he]

/-- C10 witness: the send theorem at the concrete connected input with
surrounding whitespace. -/
theorem c10_send_user_input_witness :
    sendUserInput "  Hello!  " true
      = ([ClientOp.updateSessionModalities ["text"],
          ClientOp.sendUserMessageText "Hello!"], "") := by
  have he : jsTrim "  Hello!  " ≠ "" := by decide
  have h := (c10_send_user_input "  Hello!  " true).2.1 he rfl
  have ht : jsTrim "  Hello!  " = "Hello!" := by decide
  rw [ht] at h
  exact h
